import Mathlib

/-!
Shallow embedding of the snyk-universal-broker-group-config repository
(src/snyk_api.py and src/broker_mass_configure.py).

The program is a sequential orchestration of HTTP calls against the Snyk
REST API.  We embed it by making the remote service an explicit oracle
(functions from request data to responses) and by translating each Python
function into a Lean function over that oracle.  Mutating HTTP calls
(create/delete of broker integrations) are additionally recorded in an
explicit trace, so that temporal claims ("never issues a delete for the
source organization", "dry run issues no delete") become statements about
the trace.  Python exceptions that the code catches are embedded with
`Except String`, the exception text being the message the handler stores.
-/

namespace Snyk

/-- Data model for a Snyk organization, mirroring the `Organization`
dataclass of src/snyk_api.py (lines 17-27). -/
structure Organization where
  id : String
  name : String
  slug : String
  group_id : String
  is_personal : Bool
  access_requests_enabled : Bool
  created_at : String
  updated_at : String
deriving DecidableEq, Repr

/-- Data model for a Snyk broker connection (`BrokerConnection` dataclass,
src/snyk_api.py lines 30-36). -/
structure BrokerConnection where
  id : String
  name : String
  connection_type : String
  deployment_id : String
deriving DecidableEq, Repr

/-- Data model for a Snyk broker integration (`BrokerIntegration`
dataclass, src/snyk_api.py lines 39-44). -/
structure BrokerIntegration where
  id : String
  org_id : String
  integration_type : String
deriving DecidableEq, Repr

/-! ### validate_organization_access (src/snyk_api.py lines 248-276)

The method probes `GET /orgs/{org_id}` under a fixed list of API versions.
We embed the remote side as `probe : String → Nat`, the HTTP status code
returned for a given version string, and return alongside the boolean the
list of versions actually tried, so that the short-circuit behaviour is
visible. -/

/-- The fixed ordered version list of src/snyk_api.py line 253. -/
def api_versions : List String := ["2024-10-15", "2023-05-29", "2023-06-18"]

/-- The version-fallback loop of `validate_organization_access`
(src/snyk_api.py lines 255-276): 200 stops with True, 404 moves to the
next version, 401/403 stop with False, any other status also moves on
(the `else: continue` branch), and an exhausted list yields False.
The second component is the list of versions that were probed. -/
def validateGo (probe : String → Nat) : List String → Bool × List String
  | [] => (false, [])
  | v :: rest =>
    let code := probe v
    if code = 200 then (true, [v])
    else if code = 404 then
      let r := validateGo probe rest
      (r.1, v :: r.2)
    else if code = 403 ∨ code = 401 then (false, [v])
    else
      let r := validateGo probe rest
      (r.1, v :: r.2)

/-- The function `validate_organization_access` of src/snyk_api.py
(lines 248-276), over the fixed version list. -/
def validate_organization_access (probe : String → Nat) : Bool × List String :=
  validateGo probe api_versions

/-- A status code on which the version loop moves to the next version:
anything other than the decisive 200 and 401/403. -/
def continuesOn (code : Nat) : Prop := code ≠ 200 ∧ code ≠ 401 ∧ code ≠ 403

instance (code : Nat) : Decidable (continuesOn code) := by
  unfold continuesOn; infer_instance

/-! ### get_organizations_for_group (src/snyk_api.py lines 125-200)

Pagination over `GET /groups/{group_id}/orgs`.  The remote side is
`fetch : String → Page`, mapping a request URL to the response: the HTTP
status, the raw `data` array and the `links.next` field.  The loop is
given fuel (a bound on the number of pages it may follow); `none` means
the fuel ran out, which never happens for a finite page chain. -/

/-- The `attributes` object of one element of the `data` array of the
group-orgs response, with each field optional as in a JSON object
(the code reads them with `attrs.get(key, default)`). -/
structure RawAttrs where
  name : Option String
  slug : Option String
  group_id : Option String
  is_personal : Option Bool
  access_requests_enabled : Option Bool
  created_at : Option String
  updated_at : Option String
deriving DecidableEq, Repr

/-- One element of the response `data` array. -/
structure RawOrg where
  id : String
  attributes : RawAttrs
deriving DecidableEq, Repr

/-- One page of the group-orgs response: HTTP status, `data` array,
`links.next`. -/
structure Page where
  status : Nat
  data : List RawOrg
  next : Option String
deriving DecidableEq, Repr

/-- The Organization built from one raw element (src/snyk_api.py lines
160-172): each attribute falls back to the default the code passes to
`attrs.get`. -/
def orgOfData (r : RawOrg) : Organization :=
  { id := r.id
    name := r.attributes.name.getD ""
    slug := r.attributes.slug.getD ""
    group_id := r.attributes.group_id.getD ""
    is_personal := r.attributes.is_personal.getD false
    access_requests_enabled := r.attributes.access_requests_enabled.getD false
    created_at := r.attributes.created_at.getD ""
    updated_at := r.attributes.updated_at.getD "" }

/-- URL normalisation for `links.next` (src/snyk_api.py lines 182-186):
a root-relative URL is prefixed with the API host. -/
def normalizeNext (nu : String) : String :=
  if nu.startsWith "/" then "https://api.snyk.io" ++ nu else nu

/-- The pagination loop of `get_organizations_for_group` (src/snyk_api.py
lines 149-197).  On 200 with an empty `data` array the loop ends with the
accumulator; on 200 with data it appends the converted organizations and
follows `links.next` when present; on 404, 401/403 and any other error
status it returns the empty list, discarding the accumulator. -/
def getOrgsGo (fetch : String → Page) : Nat → String → List Organization →
    Option (List Organization)
  | 0, _, _ => none
  | fuel + 1, url, acc =>
    let p := fetch url
    if p.status = 200 then
      if p.data.isEmpty then some acc
      else
        let acc2 := acc ++ p.data.map orgOfData
        match p.next with
        | none => some acc2
        | some nu => getOrgsGo fetch fuel (normalizeNext nu) acc2
    else if p.status = 404 then some []
    else if p.status = 403 ∨ p.status = 401 then some []
    else some []

/-- The initial request URL of `get_organizations_for_group`
(src/snyk_api.py line 143). -/
def groupOrgsUrl (groupId : String) : String :=
  "https://api.snyk.io/rest/groups/" ++ groupId ++ "/orgs"

/-- The function `get_organizations_for_group` of src/snyk_api.py
(lines 125-200), with `fuel` bounding the number of pages followed. -/
def get_organizations_for_group (fetch : String → Page) (groupId : String)
    (fuel : Nat) : Option (List Organization) :=
  getOrgsGo fetch fuel (groupOrgsUrl groupId) []

/-- A fetch function serves the page chain `ps` starting from `url`:
each page is the response at its URL, consecutive pages are linked by
`links.next` (normalised as the code does), and the last page has no
next link. -/
def servesChain (fetch : String → Page) : String → List Page → Prop
  | _, [] => False
  | url, [p] => fetch url = p ∧ p.next = none
  | url, p :: q :: rest =>
    fetch url = p ∧
      ∃ nu, p.next = some nu ∧ servesChain fetch (normalizeNext nu) (q :: rest)

/-! ### The bulk orchestrator (src/snyk_api.py lines 675-1021)

The orchestrator methods call the Gateway methods of the same class; we
embed the Gateway as an oracle record.  Per the Gateway contracts
(src/snyk_api.py lines 110-650 and 857-956), list-returning calls map any
error status to an empty list and the mutating broker calls map the
response status to a boolean, so those are total functions here.  The
calls that occur inside the per-organization `try` blocks of the
orchestrator (`validate_organization_access` and
`create_broker_integration`) are embedded with `Except String`, the error
carrying the text `str(e)` of a raised exception, so that the exception
handling of the loops is visible. -/

/-- The Gateway oracle seen by the orchestrator methods.  `sourceOrgId`,
held on the client object (`self.source_org_id`), is carried here too.
`groupOrgs` is the result of `get_organizations_for_group()`,
`sourceConnections` of `get_broker_connections(self.source_org_id)`,
`connIntegrations c` of `get_broker_integrations_for_connection(c)`,
`orgName o` of `get_organization_name(o)`; `validateAccess`,
`deleteOk` and `createOk` are the outcomes of
`validate_organization_access`, `delete_broker_integration` and
`create_broker_integration`. -/
structure BulkEnv where
  sourceOrgId : String
  groupOrgs : List Organization
  sourceConnections : List BrokerConnection
  connIntegrations : String → List BrokerIntegration
  orgName : String → String
  validateAccess : String → Except String Bool
  deleteOk : String → String → String → Bool
  createOk : String → String → String → String → Except String Bool

/-- A mutating HTTP call issued by the orchestrator: a POST creating a
broker integration (`create_broker_integration`, src/snyk_api.py lines
923-956) or a DELETE removing one (`delete_broker_integration`, lines
895-921). -/
inductive ApiCall where
  | createIntegration (connId orgId integrationId integrationType : String)
  | deleteIntegration (connId orgId integrationId : String)
deriving DecidableEq, Repr

/-- The organization id a mutating call is scoped to. -/
def ApiCall.orgId : ApiCall → String
  | .createIntegration _ o _ _ => o
  | .deleteIntegration _ o _ => o

/-- Whether a mutating call is a creation. -/
def ApiCall.isCreate : ApiCall → Bool
  | .createIntegration _ _ _ _ => true
  | .deleteIntegration _ _ _ => false

/-- A success entry appended by the configure workflows (org id, org
name, broker connection id; the constant `status: configured` field is
omitted). -/
structure SuccessEntry where
  org_id : String
  org_name : String
  broker_connection_id : String
deriving DecidableEq, Repr

/-- A failed or skipped entry appended by the configure workflows
(org id, org name, reason). -/
structure FailedEntry where
  org_id : String
  org_name : String
  reason : String
deriving DecidableEq, Repr

/-- The result record of the configure workflows: the `success`,
`failed` and `skipped` lists. -/
structure BulkResult where
  success : List SuccessEntry
  failed : List FailedEntry
  skipped : List FailedEntry
deriving DecidableEq, Repr

/-- Outcome of processing one target organization in a configure loop. -/
inductive TargetOutcome where
  | ok (e : SuccessEntry)
  | err (e : FailedEntry)
  | skip (e : FailedEntry)
deriving DecidableEq, Repr

/-- The success entry of an outcome, if any. -/
def TargetOutcome.okEntry : TargetOutcome → Option SuccessEntry
  | .ok e => some e
  | _ => none

/-- The failed entry of an outcome, if any. -/
def TargetOutcome.errEntry : TargetOutcome → Option FailedEntry
  | .err e => some e
  | _ => none

/-- The skipped entry of an outcome, if any. -/
def TargetOutcome.skipEntry : TargetOutcome → Option FailedEntry
  | .skip e => some e
  | _ => none

/-- The connection-resolution step of `configure_broker_for_organizations_bulk`
(src/snyk_api.py lines 700-707): an explicitly given connection id is
used as is; otherwise the first broker connection of the source
organization, with failure when it has none. -/
def resolveConnection (env : BulkEnv) : Option String → Option String
  | some c => some c
  | none =>
    match env.sourceConnections with
    | [] => none
    | c :: _ => some c.id

/-- The source-integration resolution of src/snyk_api.py lines 710-715:
the first integration of the connection whose org id is the source
organization. -/
def findSourceIntegration (integrations : List BrokerIntegration)
    (sourceOrgId : String) : Option BrokerIntegration :=
  integrations.find? fun i => i.org_id == sourceOrgId

/-- The target set of the bulk workflow (src/snyk_api.py line 724): all
group organizations whose id differs from the source organization id. -/
def targetOrgsOf (env : BulkEnv) : List Organization :=
  env.groupOrgs.filter fun o => o.id != env.sourceOrgId

/-- The deletion pass of src/snyk_api.py lines 727-732: one DELETE per
integration of the connection whose org id is not the source org id.
The boolean result of each deletion is only logged, so the pass is just
its trace of calls. -/
def deletionPassCalls (sourceOrgId connId : String)
    (integrations : List BrokerIntegration) : List ApiCall :=
  (integrations.filter fun i => i.org_id != sourceOrgId).map fun i =>
    ApiCall.deleteIntegration connId i.org_id i.id

/-- The body of the creation loop of
`configure_broker_for_organizations_bulk` (src/snyk_api.py lines
739-783) for one target organization: validate access (denied → failed
with reason `Access denied`), then create the integration with the
generated id `{org.id}-{connId}` (201 → success entry, otherwise failed
with reason `Failed to create broker integration`); an exception raised
by either call is caught and recorded as a failed entry whose reason is
the exception text. -/
def processTargetOrg (env : BulkEnv) (connId integrationType : String)
    (org : Organization) : TargetOutcome × List ApiCall :=
  match env.validateAccess org.id with
  | .error msg => (.err ⟨org.id, org.name, msg⟩, [])
  | .ok false => (.err ⟨org.id, org.name, "Access denied"⟩, [])
  | .ok true =>
    let integId := org.id ++ "-" ++ connId
    let call := ApiCall.createIntegration connId org.id integId integrationType
    match env.createOk connId org.id integId integrationType with
    | .error msg => (.err ⟨org.id, org.name, msg⟩, [call])
    | .ok true => (.ok ⟨org.id, org.name, connId⟩, [call])
    | .ok false => (.err ⟨org.id, org.name, "Failed to create broker integration"⟩, [call])

/-- The method `configure_broker_for_organizations_bulk` of
src/snyk_api.py (lines 675-789), returning the result record and the
trace of the mutating calls it issued.  The three early returns (empty
group, no source connection, no source integration) return the empty
record having issued no mutating call; otherwise the deletion pass runs,
then the creation loop over the target organizations, appending each
outcome to `success` or `failed`; `skipped` is never appended to. -/
def configure_broker_for_organizations_bulk (env : BulkEnv)
    (brokerConnectionId : Option String) : BulkResult × List ApiCall :=
  if env.groupOrgs.isEmpty then (⟨[], [], []⟩, [])
  else
    match resolveConnection env brokerConnectionId with
    | none => (⟨[], [], []⟩, [])
    | some connId =>
      let sourceIntegrations := env.connIntegrations connId
      match findSourceIntegration sourceIntegrations env.sourceOrgId with
      | none => (⟨[], [], []⟩, [])
      | some srcInteg =>
        let delCalls := deletionPassCalls env.sourceOrgId connId sourceIntegrations
        let rs := (targetOrgsOf env).map
          (processTargetOrg env connId srcInteg.integration_type)
        (⟨rs.filterMap fun r => r.1.okEntry,
          rs.filterMap fun r => r.1.errEntry,
          []⟩,
         delCalls ++ (rs.map Prod.snd).flatten)

/-- The deletion loop of `_configure_broker_for_org` (src/snyk_api.py
lines 993-1000): for each integration of the connection bound to the
target org, issue a DELETE; a failed deletion returns False at once. -/
def deleteExisting (env : BulkEnv) (connId orgId : String) :
    List BrokerIntegration → Bool × List ApiCall
  | [] => (true, [])
  | i :: rest =>
    if i.org_id == orgId then
      let call := ApiCall.deleteIntegration connId orgId i.id
      if env.deleteOk connId orgId i.id then
        let r := deleteExisting env connId orgId rest
        (r.1, call :: r.2)
      else (false, [call])
    else deleteExisting env connId orgId rest

/-- The method `_configure_broker_for_org` of src/snyk_api.py (lines
958-1021).  After the source-precondition check and the deletion loop,
the creation step at line 1008 passes the name `integration_id`, which
is defined nowhere in the function or module: Python raises `NameError`
when evaluating the argument list, before any request is issued, and the
surrounding `except Exception` handler (lines 1019-1021) returns False.
Both post-deletion branches therefore yield False with no create call. -/
def _configure_broker_for_org (env : BulkEnv) (orgId connId : String) :
    Bool × List ApiCall :=
  let integrations := env.connIntegrations connId
  match findSourceIntegration integrations env.sourceOrgId with
  | none => (false, [])
  | some _ =>
    let r := deleteExisting env connId orgId integrations
    if r.1 then (false, r.2) else (false, r.2)

/-- The body of the loop of `configure_broker_for_organizations`
(src/snyk_api.py lines 814-852) for one target org id: access denial is
routed to `skipped` with reason `Organization not accessible`; an
exception raised by the validation call is caught by the outer handler
and recorded as failed with reason `Exception: {text}`; otherwise the
boolean of `_configure_broker_for_org` routes to `success` or to
`failed` with reason `Failed to configure broker integration`. -/
def processOrgNonBulk (env : BulkEnv) (connId orgId : String) :
    TargetOutcome × List ApiCall :=
  match env.validateAccess orgId with
  | .error msg => (.err ⟨orgId, env.orgName orgId, "Exception: " ++ msg⟩, [])
  | .ok false => (.skip ⟨orgId, env.orgName orgId, "Organization not accessible"⟩, [])
  | .ok true =>
    let r := _configure_broker_for_org env orgId connId
    if r.1 then (.ok ⟨orgId, env.orgName orgId, connId⟩, r.2)
    else (.err ⟨orgId, env.orgName orgId, "Failed to configure broker integration"⟩, r.2)

/-- The method `configure_broker_for_organizations` of src/snyk_api.py
(lines 791-855): when no explicit target list is given, the target org
ids are the group organizations minus the source
(`get_target_organizations_for_broker_config`, lines 652-673); each id
is processed in order and appended to one of the three buckets. -/
def configure_broker_for_organizations (env : BulkEnv) (connId : String)
    (targetOrgIds : Option (List String)) : BulkResult × List ApiCall :=
  let ids :=
    match targetOrgIds with
    | some l => l
    | none => (targetOrgsOf env).map Organization.id
  let rs := ids.map (processOrgNonBulk env connId)
  (⟨rs.filterMap fun r => r.1.okEntry,
    rs.filterMap fun r => r.1.errEntry,
    rs.filterMap fun r => r.1.skipEntry⟩,
   (rs.map Prod.snd).flatten)

/-! ### The removal workflow

`remove_connection_from_all_orgs` is invoked from
src/broker_mass_configure.py (lines 63-67) but its definition is not
among the source files; it is modelled from §4.2 of the specification
("Removal workflow"). -/

/-- Modelled from the spec: the Gateway responses seen by the removal
workflow `remove_connection_from_all_orgs`, whose definition is missing
from the source tree (only its caller in src/broker_mass_configure.py is
present).  `groupOrgs` is the group organization listing;
`matchingIntegrations o c` the ids of the organization's integrations
that match the broker heuristic and correspond to connection `c`
(spec §4.2 removal step 2, implementation-defined match); `deleteOk o i`
whether the deletion call for integration `i` of organization `o`
succeeds. -/
structure RemovalEnv where
  groupOrgs : List Organization
  matchingIntegrations : String → String → List String
  deleteOk : String → String → Bool

/-- A success entry of the removal workflow: the organization and the
count of integrations removed (or, under dry run, that would be
removed). -/
structure RemovalSuccess where
  org_id : String
  org_name : String
  count : Nat
deriving DecidableEq, Repr

/-- The result record of the removal workflow:
{success[], failed[], not_found[], dryRun}. -/
structure RemovalResult where
  success : List RemovalSuccess
  failed : List FailedEntry
  not_found : List (String × String)
  dry_run : Bool
deriving DecidableEq, Repr

/-- Outcome of the removal workflow for one organization. -/
inductive RemovalOutcome where
  | ok (e : RemovalSuccess)
  | err (e : FailedEntry)
  | notFound (orgId orgName : String)
deriving DecidableEq, Repr

/-- The success entry of a removal outcome, if any. -/
def RemovalOutcome.okEntry : RemovalOutcome → Option RemovalSuccess
  | .ok e => some e
  | _ => none

/-- The failed entry of a removal outcome, if any. -/
def RemovalOutcome.errEntry : RemovalOutcome → Option FailedEntry
  | .err e => some e
  | _ => none

/-- The not-found entry of a removal outcome, if any. -/
def RemovalOutcome.nfEntry : RemovalOutcome → Option (String × String)
  | .notFound i n => some (i, n)
  | _ => none

/-- Modelled from the spec: steps 2-5 of the removal workflow (§4.2) for
one organization.  No matching integration → not_found; matches under
dry run → success with the count that would be removed and no call
issued; matches otherwise → one deletion call per match, success with
the count removed when all succeed, failed with a reason when any
deletion call fails. -/
def removeFromOrg (env : RemovalEnv) (connId : String) (dryRun : Bool)
    (org : Organization) : RemovalOutcome × List ApiCall :=
  let matching := env.matchingIntegrations org.id connId
  if matching.isEmpty then (.notFound org.id org.name, [])
  else if dryRun then (.ok ⟨org.id, org.name, matching.length⟩, [])
  else
    let calls := matching.map fun i => ApiCall.deleteIntegration connId org.id i
    if matching.all fun i => env.deleteOk org.id i then
      (.ok ⟨org.id, org.name, (matching.filter fun i => env.deleteOk org.id i).length⟩, calls)
    else (.err ⟨org.id, org.name, "Failed to delete one or more integrations"⟩, calls)

/-- Modelled from the spec: the removal workflow
`remove_connection_from_all_orgs(connection_id, group_id, dry_run)`
(spec §4.2), over the group organization listing, returning the record
{success[], failed[], not_found[], dryRun} and the trace of deletion
calls issued. -/
def remove_connection_from_all_orgs (env : RemovalEnv) (connId : String)
    (dryRun : Bool) : RemovalResult × List ApiCall :=
  let rs := env.groupOrgs.map (removeFromOrg env connId dryRun)
  (⟨rs.filterMap fun r => r.1.okEntry,
    rs.filterMap fun r => r.1.errEntry,
    rs.filterMap fun r => r.1.nfEntry,
    dryRun⟩,
   (rs.map Prod.snd).flatten)

/-! ### Concrete fixtures

Small concrete environments used to evaluate the workflows on explicit
inputs. -/

/-- A source organization. -/
def orgSrc : Organization := ⟨"src", "Source", "source", "g1", false, false, "", ""⟩

/-- A target organization of the same group. -/
def orgB : Organization := ⟨"orgB", "B", "b", "g1", false, false, "", ""⟩

/-- The source organization's integration on connection `conn1`. -/
def intSrc : BrokerIntegration := ⟨"i1", "src", "bitbucket-server"⟩

/-- An integration on `conn1` belonging to an organization that is not in
the group listing. -/
def intOutside : BrokerIntegration := ⟨"i2", "orgX", "bitbucket-server"⟩

/-- A concrete bulk environment: group [src, B], one connection `conn1`
whose integrations are the source's and one of an organization outside
the group; every access validates, every mutation succeeds. -/
def envA : BulkEnv :=
  { sourceOrgId := "src"
    groupOrgs := [orgSrc, orgB]
    sourceConnections := [⟨"conn1", "main", "broker", "d1"⟩]
    connIntegrations := fun c => if c = "conn1" then [intSrc, intOutside] else []
    orgName := fun o => o
    validateAccess := fun _ => Except.ok true
    deleteOk := fun _ _ _ => true
    createOk := fun _ _ _ _ => Except.ok true }

/-- The environment `envA` with an empty group listing. -/
def envEmpty : BulkEnv := { envA with groupOrgs := [] }

/-- The environment `envA` where access to `orgB` is denied. -/
def envDeny : BulkEnv :=
  { envA with validateAccess := fun o =>
      if o = "orgB" then Except.ok false else Except.ok true }

/-- The environment `envA` where validating `orgB` raises an exception
with text `boom`. -/
def envRaise : BulkEnv :=
  { envA with validateAccess := fun o =>
      if o = "orgB" then Except.error "boom" else Except.ok true }

/-! ## Theorems -/

/-! ### Version fallback (C3) -/

/-- Splitting a list at the first element satisfying `P` after a prefix
of elements satisfying `Q`: a head that fails `P` but satisfies `Q`
shifts the split into the tail. -/
theorem split_cons_shift {α : Type} (P Q : α → Prop) (v : α) (rest : List α)
    (hv : ¬ P v) (hq : Q v) :
    (∃ pre w post, v :: rest = pre ++ w :: post ∧ P w ∧ ∀ u ∈ pre, Q u) ↔
      ∃ pre w post, rest = pre ++ w :: post ∧ P w ∧ ∀ u ∈ pre, Q u := by
  constructor
  · rintro ⟨pre, w, post, heq, hw, hall⟩
    cases pre with
    | nil =>
      simp only [List.nil_append, List.cons.injEq] at heq
      obtain ⟨h1, _⟩ := heq
      exact absurd (h1 ▸ hw) hv
    | cons a pre =>
      simp only [List.cons_append, List.cons.injEq] at heq
      obtain ⟨h1, h2⟩ := heq
      exact ⟨pre, w, post, h2, hw, fun u hu => hall u (List.mem_cons_of_mem a hu)⟩
  · rintro ⟨pre, w, post, heq, hw, hall⟩
    refine ⟨v :: pre, w, post, by simp [heq], hw, ?_⟩
    intro u hu
    rcases List.mem_cons.1 hu with h | h
    · exact h ▸ hq
    · exact hall u h

/-- A head that fails both `P` and `Q` blocks any split of the list at a
first `P`-element after a `Q`-prefix. -/
theorem split_cons_blocked {α : Type} (P Q : α → Prop) (v : α) (rest : List α)
    (hv : ¬ P v) (hq : ¬ Q v) :
    ¬ ∃ pre w post, v :: rest = pre ++ w :: post ∧ P w ∧ ∀ u ∈ pre, Q u := by
  rintro ⟨pre, w, post, heq, hw, hall⟩
  cases pre with
  | nil =>
    simp only [List.nil_append, List.cons.injEq] at heq
    obtain ⟨h1, _⟩ := heq
    exact hv (h1 ▸ hw)
  | cons a pre =>
    simp only [List.cons_append, List.cons.injEq] at heq
    obtain ⟨h1, _⟩ := heq
    exact hq (h1 ▸ hall a (List.mem_cons_self a pre))

/-- The version loop returns True exactly when some version answers 200
after a prefix of versions it moves past. -/
theorem validateGo_true_iff (probe : String → Nat) :
    ∀ vs : List String, ((validateGo probe vs).1 = true ↔
      ∃ pre v post, vs = pre ++ v :: post ∧ probe v = 200 ∧
        ∀ u ∈ pre, continuesOn (probe u)) := by
  intro vs
  induction vs with
  | nil =>
    refine iff_of_false (by simp [validateGo]) ?_
    rintro ⟨pre, v, post, heq, -, -⟩
    cases pre <;> simp_all
  | cons v rest ih =>
    by_cases h200 : probe v = 200
    · refine iff_of_true (by simp [validateGo, h200]) ?_
      exact ⟨[], v, rest, rfl, h200, by simp⟩
    · by_cases hdec : probe v = 403 ∨ probe v = 401
      · have hfalse : (validateGo probe (v :: rest)).1 = false := by
          rcases hdec with h | h <;> simp [validateGo, h, h200]
        refine iff_of_false (by simp [hfalse]) ?_
        refine split_cons_blocked _ _ v rest h200 ?_
        rintro ⟨-, h401, h403⟩
        rcases hdec with h | h
        · exact h403 h
        · exact h401 h
      · have h403 : probe v ≠ 403 := fun h => hdec (Or.inl h)
        have h401 : probe v ≠ 401 := fun h => hdec (Or.inr h)
        have hstep : (validateGo probe (v :: rest)).1 = (validateGo probe rest).1 := by
          by_cases h404 : probe v = 404
          · simp [validateGo, h200, h404]
          · simp [validateGo, h200, h404, h403, h401]
        rw [hstep, ih]
        exact (split_cons_shift (fun w => probe w = 200)
          (fun u => continuesOn (probe u)) v rest h200 ⟨h200, h401, h403⟩).symm

/-- A version answering 401 or 403 after a prefix of versions the loop
moves past stops the loop at once: the result is False and no later
version is probed. -/
theorem validateGo_shortcircuit (probe : String → Nat) :
    ∀ (pre : List String) (v : String) (post : List String),
      (∀ u ∈ pre, continuesOn (probe u)) → (probe v = 403 ∨ probe v = 401) →
      validateGo probe (pre ++ v :: post) = (false, pre ++ [v]) := by
  intro pre
  induction pre with
  | nil =>
    intro v post _ hdec
    rcases hdec with h | h <;> simp [validateGo, h]
  | cons u pre ih =>
    intro v post hall hdec
    obtain ⟨h200, h401, h403⟩ := hall u (List.mem_cons_self u pre)
    have hrec := ih v post (fun w hw => hall w (List.mem_cons_of_mem u hw)) hdec
    by_cases h404 : probe u = 404
    · simp [validateGo, h200, h404, hrec]
    · simp [validateGo, h200, h404, h401, h403, hrec]

/-- C3: `validate_organization_access` tries the fixed ordered version
list: it returns true exactly when some version's probe answers 200 and
every earlier version answered neither 200 nor 401/403 (404 and other
errors move to the next version); the first version answering 401 or 403
stops it at once with false, the remaining versions untried; and when
every version answers neither 200 nor 401/403 the versions are exhausted
and the result is false. -/
theorem validate_organization_access_version_fallback (probe : String → Nat) :
    ((validate_organization_access probe).1 = true ↔
      ∃ pre v post, api_versions = pre ++ v :: post ∧ probe v = 200 ∧
        ∀ u ∈ pre, continuesOn (probe u)) ∧
    (∀ pre v post, api_versions = pre ++ v :: post →
      (probe v = 403 ∨ probe v = 401) → (∀ u ∈ pre, continuesOn (probe u)) →
      validate_organization_access probe = (false, pre ++ [v])) ∧
    ((∀ v ∈ api_versions, continuesOn (probe v)) →
      (validate_organization_access probe).1 = false) := by
  refine ⟨validateGo_true_iff probe api_versions, ?_, ?_⟩
  · intro pre v post heq hdec hall
    unfold validate_organization_access
    rw [heq]
    exact validateGo_shortcircuit probe pre v post hall hdec
  · intro hall
    cases hres : (validate_organization_access probe).1 with
    | false => rfl
    | true =>
      obtain ⟨pre, v, post, heq, h200, -⟩ :=
        (validateGo_true_iff probe api_versions).1 hres
      have hv : v ∈ api_versions := by rw [heq]; simp
      exact absurd h200 (hall v hv).1

/-! ### Pagination (C6) -/

/-- The pagination loop over a finite well-formed page chain of 200
responses with data returns the accumulator followed by all the pages'
records in order, given fuel for the chain's length. -/
theorem getOrgsGo_chain (fetch : String → Page) :
    ∀ (ps : List Page) (url : String) (acc : List Organization) (fuel : Nat),
      servesChain fetch url ps → (∀ p ∈ ps, p.status = 200 ∧ p.data ≠ []) →
      ps.length ≤ fuel →
      getOrgsGo fetch fuel url acc =
        some (acc ++ (ps.map fun p => p.data.map orgOfData).flatten) := by
  intro ps
  induction ps with
  | nil => intro url acc fuel h; exact absurd h (by simp [servesChain])
  | cons p tail ih =>
    intro url acc fuel hchain hok hfuel
    obtain ⟨f, rfl⟩ : ∃ f, fuel = f + 1 := by
      cases fuel with
      | zero => exact absurd hfuel (by simp)
      | succ f => exact ⟨f, rfl⟩
    obtain ⟨hs, hd⟩ := hok p (List.mem_cons_self p tail)
    cases tail with
    | nil =>
      obtain ⟨hf, hnext⟩ := hchain
      simp [getOrgsGo, hf, hs, hnext, List.isEmpty_iff, hd]
    | cons q rest =>
      obtain ⟨hf, nu, hnext, hrest⟩ := hchain
      have hlen : (q :: rest).length ≤ f := by
        simpa using Nat.le_of_succ_le_succ hfuel
      have hrec := ih (normalizeNext nu) (acc ++ p.data.map orgOfData) f hrest
        (fun r hr => hok r (List.mem_cons_of_mem p hr)) hlen
      simp [getOrgsGo, hf, hs, hnext, List.isEmpty_iff, hd, hrec]

/-- C6: `get_organizations_for_group` follows the `links.next` cursor
across a chain of P pages of 200 responses and returns exactly the
records of all pages, in API order preserved across page boundaries; a
200 response with an empty data page ends the listing; and a 404, 403 or
401 response yields the empty list instead of an error. -/
theorem get_organizations_for_group_pagination (fetch : String → Page)
    (groupId : String) (ps : List Page) (fuel : Nat) :
    (servesChain fetch (groupOrgsUrl groupId) ps →
      (∀ p ∈ ps, p.status = 200 ∧ p.data ≠ []) → ps.length ≤ fuel →
      get_organizations_for_group fetch groupId fuel =
        some ((ps.map fun p => p.data.map orgOfData).flatten)) ∧
    (0 < fuel → (fetch (groupOrgsUrl groupId)).status = 200 →
      (fetch (groupOrgsUrl groupId)).data = [] →
      get_organizations_for_group fetch groupId fuel = some []) ∧
    (0 < fuel →
      ((fetch (groupOrgsUrl groupId)).status = 404 ∨
        (fetch (groupOrgsUrl groupId)).status = 403 ∨
        (fetch (groupOrgsUrl groupId)).status = 401) →
      get_organizations_for_group fetch groupId fuel = some []) := by
  refine ⟨?_, ?_, ?_⟩
  · intro hchain hok hfuel
    simpa using getOrgsGo_chain fetch ps (groupOrgsUrl groupId) [] fuel hchain hok hfuel
  · intro hfuel hs hd
    obtain ⟨f, rfl⟩ : ∃ f, fuel = f + 1 := by
      cases fuel with
      | zero => exact absurd hfuel (by simp)
      | succ f => exact ⟨f, rfl⟩
    simp [get_organizations_for_group, getOrgsGo, hs, hd]
  · intro hfuel hs
    obtain ⟨f, rfl⟩ : ∃ f, fuel = f + 1 := by
      cases fuel with
      | zero => exact absurd hfuel (by simp)
      | succ f => exact ⟨f, rfl⟩
    rcases hs with h | h | h <;> simp [get_organizations_for_group, getOrgsGo, h]

/-! ### The bulk configure workflow (C2, C4, C5, C7, C8, C10) -/

/-- With a nonempty group, a resolved connection and a source
integration, the bulk workflow is the deletion pass followed by the
creation loop over the target organizations. -/
theorem bulk_apply (env : BulkEnv) (cid : Option String) (connId : String)
    (srcInteg : BrokerIntegration)
    (hne : env.groupOrgs ≠ [])
    (hres : resolveConnection env cid = some connId)
    (hsrc : findSourceIntegration (env.connIntegrations connId) env.sourceOrgId =
      some srcInteg) :
    configure_broker_for_organizations_bulk env cid =
      (⟨((targetOrgsOf env).map
            (processTargetOrg env connId srcInteg.integration_type)).filterMap
          (fun r => r.1.okEntry),
        ((targetOrgsOf env).map
            (processTargetOrg env connId srcInteg.integration_type)).filterMap
          (fun r => r.1.errEntry),
        []⟩,
       deletionPassCalls env.sourceOrgId connId (env.connIntegrations connId) ++
         (((targetOrgsOf env).map
             (processTargetOrg env connId srcInteg.integration_type)).map
           Prod.snd).flatten) := by
  unfold configure_broker_for_organizations_bulk
  rw [if_neg (by simpa using hne), hres]
  simp only [hsrc]

/-- Every call of the deletion pass deletes one of the connection's
integrations whose organization is not the source. -/
theorem mem_deletionPassCalls {s connId : String}
    {ints : List BrokerIntegration} {c : ApiCall}
    (h : c ∈ deletionPassCalls s connId ints) :
    c.isCreate = false ∧ c.orgId ≠ s ∧
      ∃ i ∈ ints, i.org_id ≠ s ∧ c = ApiCall.deleteIntegration connId i.org_id i.id := by
  unfold deletionPassCalls at h
  obtain ⟨i, hi, rfl⟩ := List.mem_map.1 h
  obtain ⟨hmem, hne⟩ := List.mem_filter.1 hi
  have hne2 : i.org_id ≠ s := by simpa using hne
  exact ⟨rfl, hne2, i, hmem, hne2, rfl⟩

/-- The only call the creation-loop body can issue is the creation of the
target organization's integration, and only after its access validated. -/
theorem processTargetOrg_calls {env : BulkEnv} {connId ty : String}
    {o : Organization} {c : ApiCall}
    (h : c ∈ (processTargetOrg env connId ty o).2) :
    c = ApiCall.createIntegration connId o.id (o.id ++ "-" ++ connId) ty ∧
      env.validateAccess o.id = Except.ok true := by
  cases hv : env.validateAccess o.id with
  | error msg => simp [processTargetOrg, hv] at h
  | ok b =>
    cases b with
    | false => simp [processTargetOrg, hv] at h
    | true =>
      refine ⟨?_, rfl⟩
      cases hc : env.createOk connId o.id (o.id ++ "-" ++ connId) ty with
      | error msg => simp [processTargetOrg, hv, hc] at h; exact h
      | ok b2 => cases b2 <;> simp [processTargetOrg, hv, hc] at h <;> exact h

/-- The creation-loop body yields a success or a failed entry, never a
skipped one. -/
theorem processTargetOrg_cases (env : BulkEnv) (connId ty : String)
    (o : Organization) :
    (∃ e, (processTargetOrg env connId ty o).1 = .ok e) ∨
      ∃ e, (processTargetOrg env connId ty o).1 = .err e := by
  cases hv : env.validateAccess o.id with
  | error msg => exact Or.inr ⟨⟨o.id, o.name, msg⟩, by simp [processTargetOrg, hv]⟩
  | ok b =>
    cases b with
    | false =>
      exact Or.inr ⟨⟨o.id, o.name, "Access denied"⟩, by simp [processTargetOrg, hv]⟩
    | true =>
      cases hc : env.createOk connId o.id (o.id ++ "-" ++ connId) ty with
      | error msg =>
        exact Or.inr ⟨⟨o.id, o.name, msg⟩, by simp [processTargetOrg, hv, hc]⟩
      | ok b2 => cases b2 with
        | false =>
          exact Or.inr ⟨⟨o.id, o.name, "Failed to create broker integration"⟩,
            by simp [processTargetOrg, hv, hc]⟩
        | true =>
          exact Or.inl ⟨⟨o.id, o.name, connId⟩, by simp [processTargetOrg, hv, hc]⟩

/-- Computation rule for the success entry of a success outcome. -/
theorem okEntry_ok (e : SuccessEntry) : (TargetOutcome.ok e).okEntry = some e := rfl

/-- Computation rule for the success entry of a failed outcome. -/
theorem okEntry_err (e : FailedEntry) : (TargetOutcome.err e).okEntry = none := rfl

/-- Computation rule for the failed entry of a success outcome. -/
theorem errEntry_ok (e : SuccessEntry) : (TargetOutcome.ok e).errEntry = none := rfl

/-- Computation rule for the failed entry of a failed outcome. -/
theorem errEntry_err (e : FailedEntry) : (TargetOutcome.err e).errEntry = some e := rfl

/-- A list of outcomes each of which is a success or a failure splits
into the two buckets without loss. -/
theorem outcome_split_length :
    ∀ rs : List (TargetOutcome × List ApiCall),
      (∀ r ∈ rs, (∃ e, r.1 = .ok e) ∨ ∃ e, r.1 = .err e) →
      (rs.filterMap fun r => r.1.okEntry).length +
        (rs.filterMap fun r => r.1.errEntry).length = rs.length := by
  intro rs
  induction rs with
  | nil => intro _; rfl
  | cons r rest ih =>
    intro hall
    have hrest := ih fun x hx => hall x (List.mem_cons_of_mem r hx)
    rcases hall r (List.mem_cons_self r rest) with ⟨e, he⟩ | ⟨e, he⟩ <;>
      simp only [List.filterMap_cons, he, okEntry_ok, okEntry_err,
        errEntry_ok, errEntry_err, List.length_cons] <;>
      omega

/-- Each organization of the creation loop lands in exactly one of the
success and failed buckets. -/
theorem creation_loop_length (env : BulkEnv) (connId ty : String)
    (os : List Organization) :
    ((os.map (processTargetOrg env connId ty)).filterMap
        (fun r => r.1.okEntry)).length +
      ((os.map (processTargetOrg env connId ty)).filterMap
        (fun r => r.1.errEntry)).length = os.length := by
  have h := outcome_split_length (os.map (processTargetOrg env connId ty)) ?_
  · rw [List.length_map] at h
    exact h
  · intro r hr
    obtain ⟨o, ho, rfl⟩ := List.mem_map.1 hr
    exact processTargetOrg_cases env connId ty o

/-- C10: the bulk configure workflow never appends to `skipped`; for
every environment and every connection argument the returned record has
`skipped = []`. -/
theorem bulk_skipped_always_nil (env : BulkEnv) (cid : Option String) :
    (configure_broker_for_organizations_bulk env cid).1.skipped = [] := by
  unfold configure_broker_for_organizations_bulk
  by_cases he : env.groupOrgs.isEmpty
  · rw [if_pos he]
  · rw [if_neg he]
    cases hres : resolveConnection env cid with
    | none => rfl
    | some connId =>
      cases hsrc : findSourceIntegration (env.connIntegrations connId)
          env.sourceOrgId with
      | none => simp only [hsrc]
      | some s => simp only [hsrc]

/-- C2: for a source organization of the group, the bulk workflow's
target set is the group minus the source (set difference by id), and no
create or delete call it issues is scoped to the source organization. -/
theorem bulk_never_mutates_source (env : BulkEnv) (cid : Option String)
    (hmem : env.sourceOrgId ∈ env.groupOrgs.map Organization.id) :
    (∀ o, o ∈ targetOrgsOf env ↔ o ∈ env.groupOrgs ∧ o.id ≠ env.sourceOrgId) ∧
      ∀ c ∈ (configure_broker_for_organizations_bulk env cid).2,
        c.orgId ≠ env.sourceOrgId := by
  constructor
  · intro o
    simp [targetOrgsOf, List.mem_filter]
  · intro c hc
    unfold configure_broker_for_organizations_bulk at hc
    by_cases he : env.groupOrgs.isEmpty
    · rw [if_pos he] at hc
      simp at hc
    · rw [if_neg he] at hc
      cases hres : resolveConnection env cid with
      | none => rw [hres] at hc; simp at hc
      | some connId =>
        rw [hres] at hc
        cases hsrc : findSourceIntegration (env.connIntegrations connId)
            env.sourceOrgId with
        | none => simp [hsrc] at hc
        | some srcInteg =>
          simp only [hsrc] at hc
          rcases List.mem_append.1 hc with hdel | hcre
          · exact (mem_deletionPassCalls hdel).2.1
          · obtain ⟨cs, hcs, hccs⟩ := List.mem_flatten.1 hcre
            obtain ⟨r, hr, rfl⟩ := List.mem_map.1 hcs
            obtain ⟨o, ho, rfl⟩ := List.mem_map.1 hr
            obtain ⟨rfl, -⟩ := processTargetOrg_calls hccs
            have ho2 : o ∈ env.groupOrgs.filter
                (fun x => x.id != env.sourceOrgId) := ho
            have := (List.mem_filter.1 ho2).2
            simpa [ApiCall.orgId] using this

/-- Witness for C2 at the concrete environment `envA`. -/
theorem bulk_never_mutates_source_witness :
    (∀ o, o ∈ targetOrgsOf envA ↔ o ∈ envA.groupOrgs ∧ o.id ≠ envA.sourceOrgId) ∧
      ∀ c ∈ (configure_broker_for_organizations_bulk envA (some "conn1")).2,
        c.orgId ≠ envA.sourceOrgId :=
  bulk_never_mutates_source envA (some "conn1") (by decide)

/-- C4: when the group listing is empty, or no connection id is given and
the source organization has no broker connection, or the source
organization has no integration for the resolved connection, the bulk
workflow returns {success: [], failed: [], skipped: []} having issued no
create or delete call. -/
theorem bulk_precondition_failure (env : BulkEnv) (cid : Option String)
    (h : env.groupOrgs = [] ∨ (cid = none ∧ env.sourceConnections = []) ∨
      ∀ connId, resolveConnection env cid = some connId →
        findSourceIntegration (env.connIntegrations connId) env.sourceOrgId = none) :
    configure_broker_for_organizations_bulk env cid = (⟨[], [], []⟩, []) := by
  unfold configure_broker_for_organizations_bulk
  by_cases he : env.groupOrgs.isEmpty
  · rw [if_pos he]
  · rw [if_neg he]
    rcases h with h | ⟨h1, h2⟩ | h
    · exact absurd h (by simpa using he)
    · rw [h1]
      simp [resolveConnection, h2]
    · cases hres : resolveConnection env cid with
      | none => rfl
      | some connId => simp only [h connId hres]

/-- Witness for C4 at the concrete environment with an empty group. -/
theorem bulk_precondition_failure_witness :
    configure_broker_for_organizations_bulk envEmpty none = (⟨[], [], []⟩, []) :=
  bulk_precondition_failure envEmpty none (Or.inl rfl)

/-- Counterexample to C5 as stated: in the environment `envA` the
connection's integrations include one of organization `orgX`, which is
not among the group organizations, and the bulk workflow nevertheless
issues a delete call for it. -/
theorem deletion_pass_outside_group_cex :
    ApiCall.deleteIntegration "conn1" "orgX" "i2" ∈
        (configure_broker_for_organizations_bulk envA (some "conn1")).2 ∧
      ∀ o ∈ envA.groupOrgs, o.id ≠ "orgX" := by
  decide

/-- C5 (amended): during the deletion pass the bulk workflow deletes
exactly those existing BrokerIntegrations bound to the connection whose
organizationId differs from the source organization — including
integrations of organizations outside the group — and the outcome of the
deletion calls never affects the rest of the run. -/
theorem deletion_pass_amended (env : BulkEnv) (cid : Option String)
    (connId : String) (srcInteg : BrokerIntegration)
    (hne : env.groupOrgs ≠ [])
    (hres : resolveConnection env cid = some connId)
    (hsrc : findSourceIntegration (env.connIntegrations connId) env.sourceOrgId =
      some srcInteg) :
    ((configure_broker_for_organizations_bulk env cid).2.filter
        (fun c => !c.isCreate) =
      ((env.connIntegrations connId).filter
          (fun i => i.org_id != env.sourceOrgId)).map
        (fun i => ApiCall.deleteIntegration connId i.org_id i.id)) ∧
    ∀ f, configure_broker_for_organizations_bulk
        { env with deleteOk := f } cid =
      configure_broker_for_organizations_bulk env cid := by
  constructor
  · rw [bulk_apply env cid connId srcInteg hne hres hsrc]
    simp only [List.filter_append]
    have h1 : (deletionPassCalls env.sourceOrgId connId
        (env.connIntegrations connId)).filter (fun c => !c.isCreate) =
        deletionPassCalls env.sourceOrgId connId (env.connIntegrations connId) := by
      apply List.filter_eq_self.2
      intro c hcmem
      simp [(mem_deletionPassCalls hcmem).1]
    have h2 : ((((targetOrgsOf env).map
        (processTargetOrg env connId srcInteg.integration_type)).map
          Prod.snd).flatten).filter (fun c => !c.isCreate) = [] := by
      apply List.filter_eq_nil_iff.2
      intro c hcmem
      obtain ⟨cs, hcs, hccs⟩ := List.mem_flatten.1 hcmem
      obtain ⟨r, hr, rfl⟩ := List.mem_map.1 hcs
      obtain ⟨o, ho, rfl⟩ := List.mem_map.1 hr
      obtain ⟨rfl, -⟩ := processTargetOrg_calls hccs
      simp [ApiCall.isCreate]
    rw [h1, h2, List.append_nil]
    rfl
  · intro f
    rfl

/-- Witness for the amended C5 at the concrete environment `envA`. -/
theorem deletion_pass_amended_witness :
    ((configure_broker_for_organizations_bulk envA (some "conn1")).2.filter
        (fun c => !c.isCreate) =
      ((envA.connIntegrations "conn1").filter
          (fun i => i.org_id != envA.sourceOrgId)).map
        (fun i => ApiCall.deleteIntegration "conn1" i.org_id i.id)) ∧
    ∀ f, configure_broker_for_organizations_bulk
        { envA with deleteOk := f } (some "conn1") =
      configure_broker_for_organizations_bulk envA (some "conn1") :=
  deletion_pass_amended envA (some "conn1") "conn1" intSrc
    (by decide) rfl (by decide)

/-- Computation rule for the skipped entry of a skip outcome. -/
theorem skipEntry_skip (e : FailedEntry) : (TargetOutcome.skip e).skipEntry = some e := rfl

/-- C7: when access validation denies a target organization, the bulk
workflow records it under `failed` with reason `Access denied` and
issues no create call for it, while `configure_broker_for_organizations`
records the same condition under `skipped` with reason
`Organization not accessible`. -/
theorem access_denied_routing (env : BulkEnv) (cid : Option String)
    (connId connId2 : String) (srcInteg : BrokerIntegration)
    (org : Organization) (tids : List String)
    (hne : env.groupOrgs ≠ [])
    (hres : resolveConnection env cid = some connId)
    (hsrc : findSourceIntegration (env.connIntegrations connId) env.sourceOrgId =
      some srcInteg)
    (hmem : org ∈ targetOrgsOf env)
    (hv : env.validateAccess org.id = Except.ok false)
    (hmem2 : org.id ∈ tids) :
    (⟨org.id, org.name, "Access denied"⟩ ∈
        (configure_broker_for_organizations_bulk env cid).1.failed) ∧
    (∀ c ∈ (configure_broker_for_organizations_bulk env cid).2,
        c.isCreate = true → c.orgId ≠ org.id) ∧
    (⟨org.id, env.orgName org.id, "Organization not accessible"⟩ ∈
        (configure_broker_for_organizations env connId2 (some tids)).1.skipped) := by
  refine ⟨?_, ?_, ?_⟩
  · rw [bulk_apply env cid connId srcInteg hne hres hsrc]
    refine List.mem_filterMap.2
      ⟨processTargetOrg env connId srcInteg.integration_type org,
        List.mem_map_of_mem _ hmem, ?_⟩
    simp [processTargetOrg, hv, errEntry_err]
  · intro c hc hcr
    rw [bulk_apply env cid connId srcInteg hne hres hsrc] at hc
    rcases List.mem_append.1 hc with hdel | hcre
    · exact absurd hcr (by simp [(mem_deletionPassCalls hdel).1])
    · obtain ⟨cs, hcs, hccs⟩ := List.mem_flatten.1 hcre
      obtain ⟨r, hr, rfl⟩ := List.mem_map.1 hcs
      obtain ⟨o, ho, rfl⟩ := List.mem_map.1 hr
      obtain ⟨rfl, hval⟩ := processTargetOrg_calls hccs
      intro heq
      simp only [ApiCall.orgId] at heq
      rw [heq, hv] at hval
      exact absurd hval (by simp)
  · show _ ∈ (tids.map (processOrgNonBulk env connId2)).filterMap
      fun r => r.1.skipEntry
    refine List.mem_filterMap.2
      ⟨processOrgNonBulk env connId2 org.id, List.mem_map_of_mem _ hmem2, ?_⟩
    simp [processOrgNonBulk, hv, skipEntry_skip]

/-- Witness for C7 at the concrete environment `envDeny`. -/
theorem access_denied_routing_witness :
    (⟨"orgB", "B", "Access denied"⟩ ∈
        (configure_broker_for_organizations_bulk envDeny (some "conn1")).1.failed) ∧
    (∀ c ∈ (configure_broker_for_organizations_bulk envDeny (some "conn1")).2,
        c.isCreate = true → c.orgId ≠ "orgB") ∧
    (⟨"orgB", "orgB", "Organization not accessible"⟩ ∈
        (configure_broker_for_organizations envDeny "conn1" (some ["orgB"])).1.skipped) :=
  access_denied_routing envDeny (some "conn1") "conn1" "conn1" intSrc orgB ["orgB"]
    (by decide) rfl (by decide) (by decide) rfl (by decide)

/-- C8: an exception raised while processing one target organization of
the bulk creation pass (by the validation or the creation call) is
recorded as a failed entry whose reason is the exception text, and the
loop still yields exactly one success-or-failed entry per target
organization. -/
theorem bulk_exception_isolation (env : BulkEnv) (cid : Option String)
    (connId : String) (srcInteg : BrokerIntegration) (org : Organization)
    (msg : String)
    (hne : env.groupOrgs ≠ [])
    (hres : resolveConnection env cid = some connId)
    (hsrc : findSourceIntegration (env.connIntegrations connId) env.sourceOrgId =
      some srcInteg)
    (hmem : org ∈ targetOrgsOf env)
    (hraise : env.validateAccess org.id = Except.error msg ∨
      (env.validateAccess org.id = Except.ok true ∧
        env.createOk connId org.id (org.id ++ "-" ++ connId)
          srcInteg.integration_type = Except.error msg)) :
    (⟨org.id, org.name, msg⟩ ∈
        (configure_broker_for_organizations_bulk env cid).1.failed) ∧
    (configure_broker_for_organizations_bulk env cid).1.success.length +
        (configure_broker_for_organizations_bulk env cid).1.failed.length =
      (targetOrgsOf env).length := by
  have hout : (processTargetOrg env connId srcInteg.integration_type org).1 =
      .err ⟨org.id, org.name, msg⟩ := by
    rcases hraise with h | ⟨h1, h2⟩
    · simp [processTargetOrg, h]
    · simp [processTargetOrg, h1, h2]
  constructor
  · rw [bulk_apply env cid connId srcInteg hne hres hsrc]
    refine List.mem_filterMap.2
      ⟨processTargetOrg env connId srcInteg.integration_type org,
        List.mem_map_of_mem _ hmem, ?_⟩
    rw [hout]
    rfl
  · rw [bulk_apply env cid connId srcInteg hne hres hsrc]
    exact creation_loop_length env connId srcInteg.integration_type (targetOrgsOf env)

/-- Witness for C8 at the concrete environment `envRaise`. -/
theorem bulk_exception_isolation_witness :
    (⟨"orgB", "B", "boom"⟩ ∈
        (configure_broker_for_organizations_bulk envRaise (some "conn1")).1.failed) ∧
    (configure_broker_for_organizations_bulk envRaise (some "conn1")).1.success.length +
        (configure_broker_for_organizations_bulk envRaise (some "conn1")).1.failed.length =
      (targetOrgsOf envRaise).length :=
  bulk_exception_isolation envRaise (some "conn1") "conn1" intSrc orgB "boom"
    (by decide) rfl (by decide) (by decide) (Or.inl rfl)

/-! ### The per-organization configure path (C9) -/

/-- Computation rule for the success entry of a skip outcome. -/
theorem okEntry_skip (e : FailedEntry) : (TargetOutcome.skip e).okEntry = none := rfl

/-- `_configure_broker_for_org` returns False on every input: the
source-precondition branch, the failed-deletion branch and both
post-deletion branches (where the creation step raises `NameError` on
the undefined name `integration_id`) all yield False. -/
theorem configure_for_org_fst (env : BulkEnv) (orgId connId : String) :
    (_configure_broker_for_org env orgId connId).1 = false := by
  cases h : findSourceIntegration (env.connIntegrations connId) env.sourceOrgId with
  | none => simp [_configure_broker_for_org, h]
  | some i => simp [_configure_broker_for_org, h, ite_self]

/-- The non-bulk per-organization loop body never produces a success
outcome. -/
theorem nonbulk_never_ok (env : BulkEnv) (connId orgId : String) :
    (processOrgNonBulk env connId orgId).1.okEntry = none := by
  cases hv : env.validateAccess orgId with
  | error msg => simp [processOrgNonBulk, hv, okEntry_err]
  | ok b =>
    cases b with
    | false => simp [processOrgNonBulk, hv, okEntry_skip]
    | true =>
      simp [processOrgNonBulk, hv, configure_for_org_fst env orgId connId,
        okEntry_err]

/-- C9: `_configure_broker_for_org` returns False for every input — its
creation step references the undefined name `integration_id`, so every
execution passing the source check and the deletion loop raises
`NameError`, converted to False by the handler — and consequently
`configure_broker_for_organizations` never appends to its success
list. -/
theorem configure_for_org_always_false (env : BulkEnv) (orgId connId : String)
    (tids : Option (List String)) :
    (_configure_broker_for_org env orgId connId).1 = false ∧
      (configure_broker_for_organizations env connId tids).1.success = [] := by
  refine ⟨configure_for_org_fst env orgId connId, ?_⟩
  apply List.filterMap_eq_nil_iff.2
  intro r hr
  obtain ⟨oid, hoid, rfl⟩ := List.mem_map.1 hr
  exact nonbulk_never_ok env connId oid

/-! ### The removal workflow (C1) -/

/-- Computation rule for the success entry of a removal success. -/
theorem rem_okEntry_ok (e : RemovalSuccess) :
    (RemovalOutcome.ok e).okEntry = some e := rfl

/-- Under dry run the removal loop body issues no call at all. -/
theorem removeFromOrg_dryRun_calls (env : RemovalEnv) (connId : String)
    (org : Organization) : (removeFromOrg env connId true org).2 = [] := by
  by_cases hm : (env.matchingIntegrations org.id connId).isEmpty <;>
    simp [removeFromOrg, hm]

/-- C1: the removal workflow returns the record
{success[], failed[], not_found[], dryRun}; every group organization with
no matching broker integration is appended to `not_found`; and under
`dryRun = true` no delete call is issued while each success entry
reports the count of integrations that would be removed. -/
theorem removal_workflow_contract (env : RemovalEnv) (connId : String)
    (dryRun : Bool) :
    ((remove_connection_from_all_orgs env connId dryRun).1.dry_run = dryRun) ∧
    (∀ org ∈ env.groupOrgs, env.matchingIntegrations org.id connId = [] →
      (org.id, org.name) ∈
        (remove_connection_from_all_orgs env connId dryRun).1.not_found) ∧
    (dryRun = true →
      (remove_connection_from_all_orgs env connId dryRun).2 = [] ∧
      ∀ e ∈ (remove_connection_from_all_orgs env connId dryRun).1.success,
        e.count = (env.matchingIntegrations e.org_id connId).length) := by
  refine ⟨rfl, ?_, ?_⟩
  · intro org hmem hmatch
    refine List.mem_filterMap.2
      ⟨removeFromOrg env connId dryRun org, List.mem_map_of_mem _ hmem, ?_⟩
    simp [removeFromOrg, hmatch, RemovalOutcome.nfEntry]
  · rintro rfl
    constructor
    · apply List.flatten_eq_nil_iff.2
      intro l hl
      obtain ⟨r, hr, rfl⟩ := List.mem_map.1 hl
      obtain ⟨o, ho, rfl⟩ := List.mem_map.1 hr
      exact removeFromOrg_dryRun_calls env connId o
    · intro e he
      obtain ⟨r, hr, hre⟩ := List.mem_filterMap.1 he
      obtain ⟨o, ho, rfl⟩ := List.mem_map.1 hr
      by_cases hm : (env.matchingIntegrations o.id connId).isEmpty
      · simp [removeFromOrg, hm, RemovalOutcome.okEntry] at hre
      · have hrw : removeFromOrg env connId true o =
            (.ok ⟨o.id, o.name, (env.matchingIntegrations o.id connId).length⟩,
              []) := by
          simp [removeFromOrg, hm]
        rw [hrw, rem_okEntry_ok] at hre
        obtain rfl := Option.some.inj hre
        rfl

end Snyk
